import Mathlib

/-!
Verification of the playlist JSON extractor (`json_parser.cpp`).

The program scans a directory for `.json` files, extracts up to five string
fields from each (structured JSON parse with a regex fallback), aggregates the
records, tracks duplicate share codes and playlist names, and writes a flat
text report plus run statistics.

The embedding below models:
  * the regex fallback extraction (`std::regex_search` with the concrete
    patterns of the source) as an executable leftmost-match search over
    `List Char`;
  * `parseJsonFile` with its dual strategy, early return on empty content,
    and per-file diagnostic output;
  * the main scan loop with its counters, seen-sets and result sequence;
  * `writeResultsToFile` as a pure function from records to report lines.

The structured JSON parse itself is performed by the external nlohmann::json
library, which is not part of this repository; its outcome is modelled as an
abstract input (`Option JsonFields`) per file.
-/

/-- Record of the extracted fields (`struct PlaylistData` in the source).
All fields default to the empty string, meaning "not found". -/
structure PlaylistData where
  playlistName : String
  shareCode : String
  authorName : String
  authorSteamId : String
  description : String
deriving DecidableEq

/-- A freshly constructed `PlaylistData` (all members value-initialized to ""). -/
def emptyData : PlaylistData :=
  { playlistName := "", shareCode := "", authorName := "", authorSteamId := ""
    description := "" }

/-- Modelled from the spec: the outcome of a *successful* structured JSON parse
by the external nlohmann::json library (the library is not part of this
repository's sources).  For each recognized key, `some v` means the key is
present at top level with a string value `v`; `none` means the key is absent or
present with a non-string value (treated as absent, not an error).  A parse
that throws (malformed JSON) is represented as `none` at the
`Option JsonFields` level where this type is used. -/
structure JsonFields where
  playlistName : Option String
  shareCode : Option String
  authorName : Option String
  authorSteamId : Option String
  description : Option String

/-- The whitespace class `\s` of the ECMAScript grammar used by `std::regex`,
restricted to the single-byte characters it can match in these patterns. -/
def wsChar (c : Char) : Bool :=
  c = ' ' || c = '\t' || c = '\n' || c = '\r' || c = '\x0b' || c = '\x0c'

/-- Drop an expected leading pattern from a character list; `none` when the
list does not start with it. -/
def dropLead? : List Char → List Char → Option (List Char)
  | [], s => some s
  | _ :: _, [] => none
  | p :: ps, c :: cs => if p = c then dropLead? ps cs else none

/-- Consume the maximal run of `\s` characters (greedy `\s*`). -/
def skipWs : List Char → List Char
  | [] => []
  | c :: s => if wsChar c then skipWs s else c :: s

/-- Capture `[^"]*` up to a mandatory closing double quote: the characters
before the first `"`, or `none` when no `"` follows. -/
def captureQuoted? : List Char → Option (List Char)
  | [] => none
  | c :: s => if c = '"' then some [] else (captureQuoted? s).map (fun t => c :: t)

/-- Match the pattern `"key"\s*:\s*"([^"]*)"` anchored at the start of `s`,
returning the capture group.  Because `:` and `"` are not in `\s` and `"` is
excluded from the capture class, the greedy deterministic reading used here
coincides with the backtracking regex semantics. -/
def matchKeyAt (key : List Char) (s : List Char) : Option (List Char) :=
  match dropLead? ('"' :: key ++ ['"']) s with
  | none => none
  | some s1 =>
    match skipWs s1 with
    | ':' :: s2 =>
      match skipWs s2 with
      | '"' :: s3 => captureQuoted? s3
      | _ => none
    | _ => none

/-- Leftmost unanchored search, as `std::regex_search` performs: try to match
at each position from the left, returning the first successful capture. -/
def searchKey (key : List Char) : List Char → Option (List Char)
  | [] => none
  | c :: s =>
    match matchKeyAt key (c :: s) with
    | some v => some v
    | none => searchKey key s

/-- `std::regex_search(content, match, pattern)` for the source's patterns
`"<key>"\s*:\s*"([^"]*)"`, returning `match[1]` on success. -/
def regexExtract (key : String) (content : String) : Option String :=
  (searchKey key.data content.data).map (fun t => String.mk t)

/-- Populate a `PlaylistData` from a successful structured parse, reading each
recognized field only if present and string-typed, and the author/description
fields only when the corresponding mode is enabled (source lines 50-63). -/
def structuredFill (j : JsonFields) (ia idm : Bool) : PlaylistData :=
  { playlistName := j.playlistName.getD ""
    shareCode := j.shareCode.getD ""
    authorName := if ia then j.authorName.getD "" else ""
    authorSteamId := if ia then j.authorSteamId.getD "" else ""
    description := if idm then j.description.getD "" else "" }

/-- The condition guarding the regex fallback block (source lines 69-71). -/
def needsFallback (d : PlaylistData) (ia idm : Bool) : Bool :=
  d.playlistName == "" || d.shareCode == "" ||
    (ia && (d.authorName == "" || d.authorSteamId == "")) ||
    (idm && d.description == "")

/-- The regex fallback block (source lines 72-91): each relevant field is
re-searched in the raw content and assigned whenever the pattern matches,
whether or not the field already holds a value. -/
def applyFallback (d : PlaylistData) (content : String) (ia idm : Bool) : PlaylistData :=
  { playlistName :=
      match regexExtract "playlistName" content with
      | some v => v
      | none => d.playlistName
    shareCode :=
      match regexExtract "shareCode" content with
      | some v => v
      | none => d.shareCode
    authorName :=
      if ia then
        match regexExtract "authorName" content with
        | some v => v
        | none => d.authorName
      else d.authorName
    authorSteamId :=
      if ia then
        match regexExtract "authorSteamId" content with
        | some v => v
        | none => d.authorSteamId
      else d.authorSteamId
    description :=
      if idm then
        match regexExtract "description" content with
        | some v => v
        | none => d.description
      else d.description }

/-- Render a possibly-empty field the way the diagnostics do. -/
def notFound (s : String) : String := if s = "" then "(not found)" else s

/-- The per-file diagnostic block printed to stdout (source lines 94-103). -/
def diagBlock (filename : String) (d : PlaylistData) (ia idm : Bool) : List String :=
  ["File: " ++ filename,
   "  playlistName: " ++ notFound d.playlistName,
   "  shareCode: " ++ notFound d.shareCode]
  ++ (if ia then
        ["  authorName: " ++ notFound d.authorName,
         "  authorSteamId: " ++ notFound d.authorSteamId]
      else [])
  ++ (if idm then ["  description: " ++ notFound d.description] else [])

/-- Observable outcome of `parseJsonFile`: the record, whether the regex
fallback block executed, and the lines written to stderr and stdout. -/
structure ParseOutput where
  data : PlaylistData
  usedFallback : Bool
  cerrLines : List String
  coutLines : List String

/-- `parseJsonFile` (source lines 39-106).  `content` is what
`readFileToString` returned: the empty string both for an unreadable file and
for a zero-length file, in which case the function returns an all-empty record
immediately, printing only a stderr message.  `structParse` is the outcome of
`json::parse(content)` (abstract, see `JsonFields`): `none` when the parse
threw, in which case every field is still empty when the fallback condition is
tested. -/
def parseJsonFile (filename content : String) (structParse : Option JsonFields)
    (ia idm : Bool) : ParseOutput :=
  if content = "" then
    { data := emptyData, usedFallback := false
      cerrLines := ["Failed to open or empty file: " ++ filename], coutLines := [] }
  else
    let d0 := match structParse with
      | some j => structuredFill j ia idm
      | none => emptyData
    let fb := needsFallback d0 ia idm
    let d := if fb then applyFallback d0 content ia idm else d0
    { data := d, usedFallback := fb, cerrLines := []
      coutLines := diagBlock filename d ia idm }

/-- One report block of `writeResultsToFile` (source lines 115-124). -/
def recordBlock (r : PlaylistData) (ia idm : Bool) : List String :=
  ["Playlist Name: " ++ notFound r.playlistName,
   "Share Code: " ++ notFound r.shareCode]
  ++ (if ia && !(r.authorName == "") && !(r.authorSteamId == "") then
        ["Author: " ++ r.authorName ++ " SID: " ++ r.authorSteamId]
      else [])
  ++ (if idm && !(r.description == "") then ["Description: " ++ r.description] else [])
  ++ [""]

/-- The full text written by `writeResultsToFile` (source lines 108-129), as a
list of lines: one block per record, in sequence order. -/
def writeResultsToFile (results : List PlaylistData) (ia idm : Bool) : List String :=
  results.flatMap (fun r => recordBlock r ia idm)

/-- One input file as seen by the pipeline: a `.json` regular file of the
scanned directory, its full text content as returned by `readFileToString`,
and the outcome of the external structured JSON parse of that content. -/
structure FileInput where
  filename : String
  content : String
  structParse : Option JsonFields

/-- Run the extractor on one input file. -/
def parseFile (ia idm : Bool) (f : FileInput) : ParseOutput :=
  parseJsonFile f.filename f.content f.structParse ia idm

/-- The mutable state of `main`'s scan loop (source lines 192-199), plus the
console streams. -/
structure ScanState where
  results : List PlaylistData
  seenShareCodes : List String
  seenPlaylistNames : List String
  fileCount : Nat
  successfulParses : Nat
  failedParses : Nat
  duplicateShareCodes : Nat
  duplicateNames : Nat
  consoleOut : List String
  consoleErr : List String

/-- The state before the loop: empty containers, zero counters. -/
def initState : ScanState :=
  { results := [], seenShareCodes := [], seenPlaylistNames := []
    fileCount := 0, successfulParses := 0, failedParses := 0
    duplicateShareCodes := 0, duplicateNames := 0
    consoleOut := [], consoleErr := [] }

/-- Duplicate-share-code bookkeeping (source lines 210-215): membership is
checked first; on a hit the counter is incremented and a warning printed, else
the value is inserted into the seen-set. -/
def tallyShareCode (st : ScanState) (c : String) : ScanState :=
  if c ∈ st.seenShareCodes then
    { st with duplicateShareCodes := st.duplicateShareCodes + 1
              consoleOut := st.consoleOut ++
                ["  [WARNING] Duplicate share code detected: " ++ c] }
  else
    { st with seenShareCodes := c :: st.seenShareCodes }

/-- Duplicate-playlist-name bookkeeping (source lines 218-223). -/
def tallyName (st : ScanState) (nm : String) : ScanState :=
  if nm ∈ st.seenPlaylistNames then
    { st with duplicateNames := st.duplicateNames + 1
              consoleOut := st.consoleOut ++
                ["  [WARNING] Duplicate playlist name detected: " ++ nm] }
  else
    { st with seenPlaylistNames := nm :: st.seenPlaylistNames }

/-- One iteration of the scan loop (source lines 201-229) on a `.json` regular
file: count it, parse it, then either tabulate a success (non-empty
`playlistName` and `shareCode`) or count a failure. -/
def processFile (ia idm : Bool) (st : ScanState) (f : FileInput) : ScanState :=
  let po := parseFile ia idm f
  let st1 : ScanState :=
    { st with fileCount := st.fileCount + 1
              consoleOut := st.consoleOut ++ po.coutLines
              consoleErr := st.consoleErr ++ po.cerrLines }
  if po.data.playlistName ≠ "" ∧ po.data.shareCode ≠ "" then
    let st2 := { st1 with successfulParses := st1.successfulParses + 1 }
    let st3 := tallyName (tallyShareCode st2 po.data.shareCode) po.data.playlistName
    { st3 with results := st3.results ++ [po.data] }
  else
    { st1 with failedParses := st1.failedParses + 1 }

/-- The scan loop from an arbitrary state. -/
def scanFrom (ia idm : Bool) (st : ScanState) : List FileInput → ScanState
  | [] => st
  | f :: fs => scanFrom ia idm (processFile ia idm st f) fs

/-- The whole scan loop of `main` over the `.json` regular files of the
target directory, in enumeration order. -/
def scanFolder (files : List FileInput) (ia idm : Bool) : ScanState :=
  scanFrom ia idm initState files

/-- The records of the run that the loop treats as successful parses, derived
directly from the per-file extraction outcomes, in scan order. -/
def succRecords (files : List FileInput) (ia idm : Bool) : List PlaylistData :=
  (files.map (fun f => (parseFile ia idm f).data)).filter
    (fun d => decide (d.playlistName ≠ "" ∧ d.shareCode ≠ ""))

/-- The share codes of the successful records, in scan order. -/
def succCodes (files : List FileInput) (ia idm : Bool) : List String :=
  (succRecords files ia idm).map (fun d => d.shareCode)

/-- The statistics block (source lines 232-241), printed unless quiet mode. -/
def statsBlock (st : ScanState) : List String :=
  ["", "=== STATISTICS ===",
   "Total files processed: " ++ toString st.fileCount,
   "Successful parses: " ++ toString st.successfulParses,
   "Failed parses: " ++ toString st.failedParses,
   "Duplicate share codes: " ++ toString st.duplicateShareCodes,
   "Duplicate playlist names: " ++ toString st.duplicateNames,
   "=================="]

/-- Observable outcome of a whole run: stdout lines and, when an output file
is written, its text (the filesystem path computation is outside the model;
`outFile` stands for the already-resolved destination name). -/
structure MainResult where
  console : List String
  outputText : Option (List String)

/-- `main` after argument/path validation (source lines 189-258): scan, then
statistics unless quiet, then either the no-files message, the report file,
or the no-valid-results message. -/
def mainRun (path outFile : String) (files : List FileInput)
    (ia idm quiet : Bool) : MainResult :=
  let st := scanFolder files ia idm
  let base := ["Scanning folder: " ++ path, ""] ++ st.consoleOut ++
    (if quiet then [] else statsBlock st)
  if st.fileCount = 0 then
    { console := base ++ ["", "No .json files found in the directory."]
      outputText := none }
  else if 0 < st.successfulParses then
    { console := base ++ ["", "Results written to " ++ outFile]
      outputText := some (writeResultsToFile st.results ia idm) }
  else
    { console := base ++ ["", "No valid results to write."]
      outputText := none }

/-- Strip an expected label from the front of a report line, as a re-reader of
the report would. -/
def stripLabel (label line : String) : Option String :=
  (dropLead? label.data line.data).map (fun t => String.mk t)

/-- Re-read the two mandatory lines of one report block, stripping the
`Playlist Name: ` and `Share Code: ` labels. -/
def readMandatory (lines : List String) : Option (String × String) :=
  match lines with
  | l1 :: l2 :: _ =>
    match stripLabel "Playlist Name: " l1, stripLabel "Share Code: " l2 with
    | some a, some b => some (a, b)
    | _, _ => none
  | _ => none

/-- `pat` occurs contiguously somewhere inside `s`. -/
def containsSub (pat : List Char) : List Char → Bool
  | [] => (dropLead? pat []).isSome
  | c :: s => (dropLead? pat (c :: s)).isSome || containsSub pat s

/-- `xs` occurs as a contiguous segment of `ys`. -/
def isSegmentOf (xs ys : List String) : Prop :=
  ∃ p q, ys = p ++ xs ++ q


/-! ## Concrete inputs used by counterexamples and witnesses -/

/-- Structured-parse outcome of `c1Content`: both required keys present and
string-typed, `playlistName` being the empty string. -/
def c1Json : JsonFields :=
  { playlistName := some "", shareCode := some "X", authorName := none
    authorSteamId := none, description := none }

/-- A well-formed JSON file whose `playlistName` is the empty string. -/
def c1Content : String := "\x7b\"playlistName\":\"\",\"shareCode\":\"X\"\x7d"

/-- Structured-parse outcome of `c2Content`: `playlistName` is `A"B` (the JSON
escape `\"` decoded by the structured parser), `shareCode` is `CODE`. -/
def c2Json : JsonFields :=
  { playlistName := some "A\"B", shareCode := some "CODE", authorName := none
    authorSteamId := none, description := none }

/-- A well-formed JSON file whose `playlistName` value contains an escaped
double quote and which has no `description` key. -/
def c2Content : String := "\x7b\"playlistName\":\"A\\\"B\",\"shareCode\":\"CODE\"\x7d"

/-- Malformed JSON containing the literal substring `"shareCode": "B"` — but
preceded by another occurrence of the pattern with value `A`. -/
def c3Content : String := "x \"shareCode\": \"A\" \"shareCode\": \"B\""

/-- A well-formed input file `Foo`/`ABC`, used by witnesses. -/
def wFoo : FileInput :=
  { filename := "a.json"
    content := "\x7b\"playlistName\":\"Foo\",\"shareCode\":\"ABC\"\x7d"
    structParse := some
      { playlistName := some "Foo", shareCode := some "ABC", authorName := none
        authorSteamId := none, description := none } }

/-! ## Basic lemmas about the fallback pattern matcher -/

theorem dropLead_self_append (p t : List Char) : dropLead? p (p ++ t) = some t := by
  induction p with
  | nil => rfl
  | cons c cs ih => simp [dropLead?, ih]

theorem captureQuoted_append (xs rest : List Char) (h : ∀ c ∈ xs, c ≠ '"') :
    captureQuoted? (xs ++ '"' :: rest) = some xs := by
  induction xs with
  | nil => simp [captureQuoted?]
  | cons c cs ih =>
    have hc : c ≠ '"' := h c (by simp)
    simp [captureQuoted?, hc]
    exact ih (fun d hd => h d (by simp [hd]))

theorem matchKeyAt_none_of_ne_quote (key : List Char) (c : Char) (s : List Char)
    (h : c ≠ '"') : matchKeyAt key (c :: s) = none := by
  have hd : dropLead? ('"' :: key ++ ['"']) (c :: s) = none := by
    show (if '"' = c then dropLead? (key ++ ['"']) s else none) = none
    exact if_neg (fun e => h e.symm)
  unfold matchKeyAt
  rw [hd]

theorem searchKey_cons (key : List Char) (c : Char) (s : List Char) :
    searchKey key (c :: s) =
      match matchKeyAt key (c :: s) with
      | some v => some v
      | none => searchKey key s := rfl

theorem searchKey_append_no_quote (key pre rest : List Char) (h : ∀ c ∈ pre, c ≠ '"') :
    searchKey key (pre ++ rest) = searchKey key rest := by
  induction pre with
  | nil => rfl
  | cons c cs ih =>
    rw [List.cons_append, searchKey_cons,
      matchKeyAt_none_of_ne_quote key c (cs ++ rest) (h c (by simp))]
    exact ih (fun d hd => h d (by simp [hd]))

theorem matchKeyAt_shareCode (X : String) (suf : List Char)
    (hX : ∀ c ∈ X.data, c ≠ '"') :
    matchKeyAt ("shareCode").data (("\"shareCode\": \"" ++ X ++ "\"").data ++ suf)
      = some X.data := by
  obtain ⟨xl⟩ := X
  have hshape : (("\"shareCode\": \"" ++ String.mk xl ++ "\"").data ++ suf)
      = ('"' :: ("shareCode").data ++ ['"'])
        ++ (':' :: ' ' :: '"' :: (xl ++ '"' :: suf)) := by
    simp [String.data_append]
  rw [hshape]
  unfold matchKeyAt
  rw [dropLead_self_append]
  show captureQuoted? (xl ++ '"' :: suf) = some xl
  exact captureQuoted_append xl suf hX

theorem regexExtract_shareCode (pre suf : List Char) (X : String)
    (hpre : ∀ c ∈ pre, c ≠ '"') (hX : ∀ c ∈ X.data, c ≠ '"') :
    regexExtract "shareCode"
      (String.mk (pre ++ ("\"shareCode\": \"" ++ X ++ "\"").data ++ suf)) = some X := by
  unfold regexExtract
  show (searchKey ("shareCode").data
      (pre ++ ("\"shareCode\": \"" ++ X ++ "\"").data ++ suf)).map
        (fun t => String.mk t) = some X
  rw [List.append_assoc, searchKey_append_no_quote _ _ _ hpre]
  have hlit : (("\"shareCode\": \"" ++ X ++ "\"").data ++ suf)
      = '"' :: (("shareCode\": \"" ++ X ++ "\"").data ++ suf) := by
    obtain ⟨xl⟩ := X; simp [String.data_append]
  rw [hlit, searchKey_cons, ← hlit, matchKeyAt_shareCode X suf hX]
  show some (String.mk X.data) = some X
  rfl

/-! ## Claim C1: when is the fallback invoked -/

/-- C1 (counterexample): a file whose structured parse succeeds and yields both
`playlistName` and `shareCode` as string-typed values, yet the regex fallback
block still runs, because the string value of `playlistName` is empty and the
source's trigger tests emptiness, not string-typedness. -/
theorem c1_counterexample :
    c1Json.playlistName.isSome = true ∧ c1Json.shareCode.isSome = true ∧
    (parseJsonFile "a.json" c1Content (some c1Json) false false).usedFallback = true := by
  decide

/-- C1 (amended): if the structured parse succeeds and leaves no
required-for-this-run field empty — `playlistName` and `shareCode` always,
`authorName`/`authorSteamId` when author mode is enabled, `description` when
description mode is enabled — then the fallback pattern matcher is never
invoked on that file's content. -/
theorem c1_required_fields_no_fallback (n content : String) (j : JsonFields)
    (ia idm : Bool)
    (h1 : j.playlistName.getD "" ≠ "") (h2 : j.shareCode.getD "" ≠ "")
    (h3 : ia = true → j.authorName.getD "" ≠ "" ∧ j.authorSteamId.getD "" ≠ "")
    (h4 : idm = true → j.description.getD "" ≠ "") :
    (parseJsonFile n content (some j) ia idm).usedFallback = false := by
  unfold parseJsonFile
  by_cases hc : content = ""
  · rw [if_pos hc]
  · rw [if_neg hc]
    show needsFallback (structuredFill j ia idm) ia idm = false
    unfold needsFallback structuredFill
    cases ia <;> cases idm <;> simp_all

/-- C1 (witness for the amended theorem): a run with every mode enabled and
every field non-empty does not trigger the fallback. -/
theorem c1_required_fields_no_fallback_witness :
    (parseJsonFile "w.json" "\x7bx\x7d"
      (some ⟨some "N", some "S", some "A", some "I", some "D"⟩) true true).usedFallback
        = false :=
  c1_required_fields_no_fallback "w.json" "\x7bx\x7d"
    ⟨some "N", some "S", some "A", some "I", some "D"⟩ true true
    (by decide) (by decide) (by decide) (by decide)

/-! ## Claim C2: does the fallback preserve structured-parse values -/

/-- C2 (counterexample): with description mode enabled and no description in
the file, the fallback runs after a partially successful structured parse and
*replaces* the structured-parse value `A"B` of `playlistName` with the regex
capture `A\` (the capture stops at the first `"`), so a field already
populated by the structured parse does not keep its value. -/
theorem c2_counterexample :
    (structuredFill c2Json false true).playlistName = "A\"B" ∧
    (parseJsonFile "f.json" c2Content (some c2Json) false true).usedFallback = true ∧
    (parseJsonFile "f.json" c2Content (some c2Json) false true).data.playlistName
      = "A\\" ∧
    ("A\\" : String) ≠ "A\"B" := by
  decide

/-- C2 (amended): when the fallback strategy runs after a successful structured
parse, it re-extracts every relevant field from the raw content: a field for
which the pattern matches is assigned the regex capture even if the structured
parse already populated it, and a field keeps its structured-parse value only
when the regex finds no match for it (`applyFallback` applied to the
structured-parse record). -/
theorem c2_fallback_overwrites (n content : String) (j : JsonFields) (ia idm : Bool)
    (h : (parseJsonFile n content (some j) ia idm).usedFallback = true) :
    (parseJsonFile n content (some j) ia idm).data
      = applyFallback (structuredFill j ia idm) content ia idm := by
  by_cases hc : content = ""
  · simp [parseJsonFile, hc] at h
  · have hfb : needsFallback (structuredFill j ia idm) ia idm = true := by
      unfold parseJsonFile at h
      rw [if_neg hc] at h
      exact h
    unfold parseJsonFile
    rw [if_neg hc]
    show (if needsFallback (structuredFill j ia idm) ia idm then
        applyFallback (structuredFill j ia idm) content ia idm
      else structuredFill j ia idm) = applyFallback (structuredFill j ia idm) content ia idm
    rw [hfb]
    simp

/-- C2 (witness for the amended theorem), at the concrete inputs of the
counterexample. -/
theorem c2_fallback_overwrites_witness :
    (parseJsonFile "f.json" c2Content (some c2Json) false true).data
      = applyFallback (structuredFill c2Json false true) c2Content false true :=
  c2_fallback_overwrites "f.json" c2Content c2Json false true (by decide)

/-! ## Claim C3: fallback recovery from malformed JSON -/

/-- C3 (counterexample): `c3Content` is malformed JSON (the structured parse
throws) and contains the literal substring `"shareCode": "B"` with quote-free
`B`, yet the fallback produces `shareCode = "A"`, the capture of the
*leftmost* pattern occurrence, not `"B"`. -/
theorem c3_counterexample :
    containsSub ("\"shareCode\": \"B\"").data c3Content.data = true ∧
    ('"' ∉ ("B" : String).data) ∧
    (parseJsonFile "f.json" c3Content none false false).data.shareCode = "A" ∧
    (parseJsonFile "f.json" c3Content none false false).data.shareCode ≠ "B" := by
  decide

/-- On malformed content (structured parse threw), every field of the record
comes from the fallback applied to an all-empty record. -/
theorem parseJsonFile_malformed (n content : String) (ia idm : Bool)
    (hc : content ≠ "") :
    (parseJsonFile n content none ia idm).data
      = applyFallback emptyData content ia idm := by
  unfold parseJsonFile
  rw [if_neg hc]
  show (if needsFallback emptyData ia idm then applyFallback emptyData content ia idm
    else emptyData) = applyFallback emptyData content ia idm
  rw [show needsFallback emptyData ia idm = true from rfl]
  simp

/-- C3 (amended): for every malformed-JSON file whose content is
`pre ++ "shareCode": "X" ++ suf` with `X` quote-free and no double quote in
`pre` (so that the displayed occurrence is the leftmost match of the fallback
pattern), the fallback produces a record with `shareCode = X`.  In general the
fallback assigns the capture of the leftmost occurrence of the pattern, which
can differ from `X` when an earlier occurrence exists (see the
counterexample). -/
theorem c3_fallback_recovers_shareCode (n : String) (pre suf : List Char) (X : String)
    (ia idm : Bool) (hpre : ∀ c ∈ pre, c ≠ '"') (hX : ∀ c ∈ X.data, c ≠ '"') :
    (parseJsonFile n (String.mk (pre ++ ("\"shareCode\": \"" ++ X ++ "\"").data ++ suf))
        none ia idm).data.shareCode = X := by
  have hne : String.mk (pre ++ ("\"shareCode\": \"" ++ X ++ "\"").data ++ suf) ≠ "" := by
    intro hcontra
    have hdata := congrArg String.data hcontra
    obtain ⟨xl⟩ := X
    simp [String.data_append] at hdata
  rw [parseJsonFile_malformed _ _ _ _ hne]
  show (match regexExtract "shareCode"
      (String.mk (pre ++ ("\"shareCode\": \"" ++ X ++ "\"").data ++ suf)) with
    | some v => v
    | none => emptyData.shareCode) = X
  rw [regexExtract_shareCode pre suf X hpre hX]

/-- C3 (witness for the amended theorem): a malformed file `{bad "shareCode":
"ABC"` from which the fallback recovers `ABC`. -/
theorem c3_fallback_recovers_shareCode_witness :
    (parseJsonFile "w.json" (String.mk (("\x7bbad ").data
        ++ ("\"shareCode\": \"" ++ "ABC" ++ "\"").data ++ []))
      none false false).data.shareCode = "ABC" :=
  c3_fallback_recovers_shareCode "w.json" ("\x7bbad ").data [] "ABC" false false
    (by decide) (by decide)

/-! ## Claim C8: report round-trip -/

theorem stripLabel_append (label v : String) : stripLabel label (label ++ v) = some v := by
  unfold stripLabel
  rw [String.data_append, dropLead_self_append]
  rfl

/-- C8 (confirmed): for every successful record, re-reading the two mandatory
lines of its written report block by stripping the `Playlist Name: ` and
`Share Code: ` labels reproduces the original `playlistName` and `shareCode`
exactly, under the claim's precondition that the values do not themselves
contain the literal field-label text. -/
theorem c8_report_roundtrip (r : PlaylistData) (ia idm : Bool)
    (h1 : r.playlistName ≠ "") (h2 : r.shareCode ≠ "")
    (h3 : containsSub ("Playlist Name: ").data r.playlistName.data = false)
    (h4 : containsSub ("Share Code: ").data r.shareCode.data = false) :
    readMandatory (recordBlock r ia idm) = some (r.playlistName, r.shareCode) := by
  have e1 : notFound r.playlistName = r.playlistName := if_neg h1
  have e2 : notFound r.shareCode = r.shareCode := if_neg h2
  show (match stripLabel "Playlist Name: " ("Playlist Name: " ++ notFound r.playlistName),
      stripLabel "Share Code: " ("Share Code: " ++ notFound r.shareCode) with
    | some a, some b => some (a, b)
    | _, _ => none) = some (r.playlistName, r.shareCode)
  rw [e1, e2, stripLabel_append, stripLabel_append]

/-- C8 (witness): round-trip at a concrete record. -/
theorem c8_report_roundtrip_witness :
    readMandatory (recordBlock ⟨"Foo", "ABC", "", "", ""⟩ false false)
      = some ("Foo", "ABC") :=
  c8_report_roundtrip ⟨"Foo", "ABC", "", "", ""⟩ false false
    (by decide) (by decide) (by decide) (by decide)

/-! ## Field-preservation lemmas for the duplicate bookkeeping -/

theorem tallyShareCode_fileCount (st : ScanState) (c : String) :
    (tallyShareCode st c).fileCount = st.fileCount := by
  unfold tallyShareCode; split <;> rfl

theorem tallyShareCode_successfulParses (st : ScanState) (c : String) :
    (tallyShareCode st c).successfulParses = st.successfulParses := by
  unfold tallyShareCode; split <;> rfl

theorem tallyShareCode_failedParses (st : ScanState) (c : String) :
    (tallyShareCode st c).failedParses = st.failedParses := by
  unfold tallyShareCode; split <;> rfl

theorem tallyShareCode_results (st : ScanState) (c : String) :
    (tallyShareCode st c).results = st.results := by
  unfold tallyShareCode; split <;> rfl

theorem tallyShareCode_seenPlaylistNames (st : ScanState) (c : String) :
    (tallyShareCode st c).seenPlaylistNames = st.seenPlaylistNames := by
  unfold tallyShareCode; split <;> rfl

theorem tallyShareCode_duplicateNames (st : ScanState) (c : String) :
    (tallyShareCode st c).duplicateNames = st.duplicateNames := by
  unfold tallyShareCode; split <;> rfl

theorem tallyShareCode_dup_len (st : ScanState) (c : String) :
    (tallyShareCode st c).duplicateShareCodes + (tallyShareCode st c).seenShareCodes.length
      = st.duplicateShareCodes + st.seenShareCodes.length + 1 := by
  unfold tallyShareCode; split <;> simp <;> omega

theorem tallyShareCode_toFinset (st : ScanState) (c : String) :
    (tallyShareCode st c).seenShareCodes.toFinset
      = insert c st.seenShareCodes.toFinset := by
  unfold tallyShareCode
  split
  · rename_i h
    exact (Finset.insert_eq_self.mpr (List.mem_toFinset.mpr h)).symm
  · simp [List.toFinset_cons]

theorem tallyShareCode_nodup (st : ScanState) (c : String)
    (h : st.seenShareCodes.Nodup) : (tallyShareCode st c).seenShareCodes.Nodup := by
  unfold tallyShareCode
  split
  · exact h
  · rename_i hnm
    exact List.nodup_cons.mpr ⟨hnm, h⟩

theorem tallyShareCode_console (st : ScanState) (c : String) :
    (tallyShareCode st c).consoleOut = st.consoleOut ++
      (if c ∈ st.seenShareCodes
        then ["  [WARNING] Duplicate share code detected: " ++ c] else []) := by
  unfold tallyShareCode; split <;> simp_all

theorem tallyName_fileCount (st : ScanState) (nm : String) :
    (tallyName st nm).fileCount = st.fileCount := by
  unfold tallyName; split <;> rfl

theorem tallyName_successfulParses (st : ScanState) (nm : String) :
    (tallyName st nm).successfulParses = st.successfulParses := by
  unfold tallyName; split <;> rfl

theorem tallyName_failedParses (st : ScanState) (nm : String) :
    (tallyName st nm).failedParses = st.failedParses := by
  unfold tallyName; split <;> rfl

theorem tallyName_results (st : ScanState) (nm : String) :
    (tallyName st nm).results = st.results := by
  unfold tallyName; split <;> rfl

theorem tallyName_seenShareCodes (st : ScanState) (nm : String) :
    (tallyName st nm).seenShareCodes = st.seenShareCodes := by
  unfold tallyName; split <;> rfl

theorem tallyName_duplicateShareCodes (st : ScanState) (nm : String) :
    (tallyName st nm).duplicateShareCodes = st.duplicateShareCodes := by
  unfold tallyName; split <;> rfl

theorem tallyName_dup_len (st : ScanState) (nm : String) :
    (tallyName st nm).duplicateNames + (tallyName st nm).seenPlaylistNames.length
      = st.duplicateNames + st.seenPlaylistNames.length + 1 := by
  unfold tallyName; split <;> simp <;> omega

theorem tallyName_nodup (st : ScanState) (nm : String)
    (h : st.seenPlaylistNames.Nodup) : (tallyName st nm).seenPlaylistNames.Nodup := by
  unfold tallyName
  split
  · exact h
  · rename_i hnm
    exact List.nodup_cons.mpr ⟨hnm, h⟩

theorem tallyName_console (st : ScanState) (nm : String) :
    (tallyName st nm).consoleOut = st.consoleOut ++
      (if nm ∈ st.seenPlaylistNames
        then ["  [WARNING] Duplicate playlist name detected: " ++ nm] else []) := by
  unfold tallyName; split <;> simp_all

/-! ## Per-iteration lemmas for the scan loop -/

theorem processFile_fileCount (ia idm : Bool) (st : ScanState) (f : FileInput) :
    (processFile ia idm st f).fileCount = st.fileCount + 1 := by
  simp only [processFile]
  split
  · simp [tallyName_fileCount, tallyShareCode_fileCount]
  · rfl

theorem processFile_step_counts (ia idm : Bool) (st : ScanState) (f : FileInput) :
    (processFile ia idm st f).fileCount = st.fileCount + 1 ∧
    ((processFile ia idm st f).successfulParses = st.successfulParses + 1 ∧
        (processFile ia idm st f).failedParses = st.failedParses ∨
      (processFile ia idm st f).successfulParses = st.successfulParses ∧
        (processFile ia idm st f).failedParses = st.failedParses + 1) := by
  refine ⟨processFile_fileCount ia idm st f, ?_⟩
  simp only [processFile]
  split
  · exact Or.inl (by
      simp [tallyName_successfulParses, tallyShareCode_successfulParses,
        tallyName_failedParses, tallyShareCode_failedParses])
  · exact Or.inr (by simp)

theorem processFile_results (ia idm : Bool) (st : ScanState) (f : FileInput) :
    (processFile ia idm st f).results = st.results ++
      (if (parseFile ia idm f).data.playlistName ≠ "" ∧ (parseFile ia idm f).data.shareCode ≠ ""
        then [(parseFile ia idm f).data] else []) := by
  simp only [processFile]
  split
  · simp [tallyName_results, tallyShareCode_results]
  · simp

theorem processFile_succParses (ia idm : Bool) (st : ScanState) (f : FileInput) :
    (processFile ia idm st f).successfulParses = st.successfulParses +
      (if (parseFile ia idm f).data.playlistName ≠ "" ∧ (parseFile ia idm f).data.shareCode ≠ ""
        then 1 else 0) := by
  simp only [processFile]
  split
  · simp [tallyName_successfulParses, tallyShareCode_successfulParses]
  · simp

theorem processFile_seenSC_toFinset (ia idm : Bool) (st : ScanState) (f : FileInput) :
    (processFile ia idm st f).seenShareCodes.toFinset = st.seenShareCodes.toFinset ∪
      (if (parseFile ia idm f).data.playlistName ≠ "" ∧ (parseFile ia idm f).data.shareCode ≠ ""
        then {(parseFile ia idm f).data.shareCode} else ∅) := by
  simp only [processFile]
  split
  · show (tallyName (tallyShareCode _ _) _).seenShareCodes.toFinset = _
    rw [tallyName_seenShareCodes, tallyShareCode_toFinset]
    show insert (parseFile ia idm f).data.shareCode st.seenShareCodes.toFinset = _
    rw [Finset.insert_eq, Finset.union_comm]
  · simp

theorem processFile_counts_inv (ia idm : Bool) (st : ScanState) (f : FileInput)
    (h : st.successfulParses + st.failedParses = st.fileCount) :
    (processFile ia idm st f).successfulParses + (processFile ia idm st f).failedParses
      = (processFile ia idm st f).fileCount := by
  obtain ⟨h1, h2⟩ := processFile_step_counts ia idm st f
  rcases h2 with ⟨hs, hf⟩ | ⟨hs, hf⟩ <;> omega

theorem processFile_seen_inv (ia idm : Bool) (st : ScanState) (f : FileInput)
    (h : st.seenShareCodes.Nodup ∧ st.seenPlaylistNames.Nodup ∧
      st.duplicateShareCodes + st.seenShareCodes.length = st.successfulParses ∧
      st.duplicateNames + st.seenPlaylistNames.length = st.successfulParses) :
    (processFile ia idm st f).seenShareCodes.Nodup ∧
      (processFile ia idm st f).seenPlaylistNames.Nodup ∧
      (processFile ia idm st f).duplicateShareCodes
        + (processFile ia idm st f).seenShareCodes.length
        = (processFile ia idm st f).successfulParses ∧
      (processFile ia idm st f).duplicateNames
        + (processFile ia idm st f).seenPlaylistNames.length
        = (processFile ia idm st f).successfulParses := by
  obtain ⟨hn1, hn2, hi1, hi2⟩ := h
  simp only [processFile]
  split
  · refine ⟨?_, ?_, ?_, ?_⟩
    · show (tallyName (tallyShareCode _ _) _).seenShareCodes.Nodup
      rw [tallyName_seenShareCodes]
      exact tallyShareCode_nodup _ _ hn1
    · show (tallyName (tallyShareCode _ _) _).seenPlaylistNames.Nodup
      apply tallyName_nodup
      rw [tallyShareCode_seenPlaylistNames]
      exact hn2
    · show (tallyName (tallyShareCode _ _) _).duplicateShareCodes
        + (tallyName (tallyShareCode _ _) _).seenShareCodes.length
        = (tallyName (tallyShareCode _ _) _).successfulParses
      rw [tallyName_duplicateShareCodes, tallyName_seenShareCodes,
        tallyName_successfulParses, tallyShareCode_successfulParses]
      have := tallyShareCode_dup_len
        { st with fileCount := st.fileCount + 1
                  successfulParses := st.successfulParses + 1
                  consoleOut := st.consoleOut ++ (parseFile ia idm f).coutLines
                  consoleErr := st.consoleErr ++ (parseFile ia idm f).cerrLines }
        (parseFile ia idm f).data.shareCode
      simp only at this ⊢
      omega
    · show (tallyName (tallyShareCode _ _) _).duplicateNames
        + (tallyName (tallyShareCode _ _) _).seenPlaylistNames.length
        = (tallyName (tallyShareCode _ _) _).successfulParses
      rw [tallyName_successfulParses, tallyShareCode_successfulParses]
      have := tallyName_dup_len
        (tallyShareCode
          { st with fileCount := st.fileCount + 1
                    successfulParses := st.successfulParses + 1
                    consoleOut := st.consoleOut ++ (parseFile ia idm f).coutLines
                    consoleErr := st.consoleErr ++ (parseFile ia idm f).cerrLines }
          (parseFile ia idm f).data.shareCode)
        (parseFile ia idm f).data.playlistName
      rw [tallyShareCode_duplicateNames, tallyShareCode_seenPlaylistNames] at this
      simp only at this ⊢
      omega
  · exact ⟨hn1, hn2, hi1, hi2⟩

theorem processFile_results_ok (ia idm : Bool) (st : ScanState) (f : FileInput)
    (h : ∀ r ∈ st.results, r.playlistName ≠ "" ∧ r.shareCode ≠ "") :
    ∀ r ∈ (processFile ia idm st f).results,
      r.playlistName ≠ "" ∧ r.shareCode ≠ "" := by
  intro r hr
  rw [processFile_results] at hr
  rcases List.mem_append.mp hr with h1 | h2
  · exact h r h1
  · by_cases hc : (parseFile ia idm f).data.playlistName ≠ ""
        ∧ (parseFile ia idm f).data.shareCode ≠ ""
    · rw [if_pos hc] at h2
      rw [List.mem_singleton.mp h2]
      exact hc
    · rw [if_neg hc] at h2
      cases h2

theorem processFile_console (ia idm : Bool) (st : ScanState) (f : FileInput) :
    ∃ w, (processFile ia idm st f).consoleOut
      = st.consoleOut ++ ((parseFile ia idm f).coutLines ++ w) := by
  simp only [processFile]
  split
  · refine ⟨(if (parseFile ia idm f).data.shareCode ∈ st.seenShareCodes then
        ["  [WARNING] Duplicate share code detected: "
          ++ (parseFile ia idm f).data.shareCode] else [])
      ++ (if (parseFile ia idm f).data.playlistName ∈ st.seenPlaylistNames then
        ["  [WARNING] Duplicate playlist name detected: "
          ++ (parseFile ia idm f).data.playlistName] else []), ?_⟩
    show (tallyName (tallyShareCode _ _) _).consoleOut = _
    rw [tallyName_console, tallyShareCode_console, tallyShareCode_seenPlaylistNames]
    simp only [List.append_assoc]
  · exact ⟨[], by simp⟩

/-! ## Whole-loop lemmas -/

theorem scanFrom_inv (ia idm : Bool) (P : ScanState → Prop)
    (hstep : ∀ st f, P st → P (processFile ia idm st f)) :
    ∀ files st, P st → P (scanFrom ia idm st files) := by
  intro files
  induction files with
  | nil => intro st h; exact h
  | cons f fs ih => intro st h; exact ih _ (hstep st f h)

theorem succRecords_cons (f : FileInput) (fs : List FileInput) (ia idm : Bool) :
    succRecords (f :: fs) ia idm =
      (if (parseFile ia idm f).data.playlistName ≠ ""
          ∧ (parseFile ia idm f).data.shareCode ≠ ""
        then [(parseFile ia idm f).data] else []) ++ succRecords fs ia idm := by
  simp only [succRecords, List.map_cons, List.filter_cons]
  by_cases h : (parseFile ia idm f).data.playlistName ≠ ""
      ∧ (parseFile ia idm f).data.shareCode ≠ ""
  · simp [h]
  · simp [h]

theorem scanFrom_results (ia idm : Bool) :
    ∀ (files : List FileInput) (st : ScanState),
      (scanFrom ia idm st files).results = st.results ++ succRecords files ia idm := by
  intro files
  induction files with
  | nil => intro st; simp [scanFrom, succRecords]
  | cons f fs ih =>
    intro st
    rw [scanFrom, ih, succRecords_cons, processFile_results, List.append_assoc]

theorem scanFrom_fileCount (ia idm : Bool) :
    ∀ (files : List FileInput) (st : ScanState),
      (scanFrom ia idm st files).fileCount = st.fileCount + files.length := by
  intro files
  induction files with
  | nil => intro st; rfl
  | cons f fs ih =>
    intro st
    rw [scanFrom, ih, processFile_fileCount, List.length_cons]
    omega

theorem scanFrom_succParses (ia idm : Bool) :
    ∀ (files : List FileInput) (st : ScanState),
      (scanFrom ia idm st files).successfulParses
        = st.successfulParses + (succRecords files ia idm).length := by
  intro files
  induction files with
  | nil => intro st; simp [scanFrom, succRecords]
  | cons f fs ih =>
    intro st
    rw [scanFrom, ih, succRecords_cons, processFile_succParses]
    by_cases h : (parseFile ia idm f).data.playlistName ≠ ""
        ∧ (parseFile ia idm f).data.shareCode ≠ ""
    · simp [h]; omega
    · simp [h]

theorem succCodes_cons_toFinset (f : FileInput) (fs : List FileInput) (ia idm : Bool) :
    (succCodes (f :: fs) ia idm).toFinset
      = (if (parseFile ia idm f).data.playlistName ≠ ""
            ∧ (parseFile ia idm f).data.shareCode ≠ ""
          then {(parseFile ia idm f).data.shareCode} else ∅)
        ∪ (succCodes fs ia idm).toFinset := by
  rw [succCodes, succRecords_cons]
  by_cases h : (parseFile ia idm f).data.playlistName ≠ ""
      ∧ (parseFile ia idm f).data.shareCode ≠ ""
  · simp [h, succCodes, List.toFinset_cons, Finset.insert_eq]
  · simp [h, succCodes]

theorem scanFrom_seenSC_toFinset (ia idm : Bool) :
    ∀ (files : List FileInput) (st : ScanState),
      (scanFrom ia idm st files).seenShareCodes.toFinset
        = st.seenShareCodes.toFinset ∪ (succCodes files ia idm).toFinset := by
  intro files
  induction files with
  | nil => intro st; simp [scanFrom, succCodes, succRecords]
  | cons f fs ih =>
    intro st
    rw [scanFrom, ih, processFile_seenSC_toFinset, succCodes_cons_toFinset,
      Finset.union_assoc]

theorem scanFrom_console_ext (ia idm : Bool) :
    ∀ (files : List FileInput) (st : ScanState),
      ∃ w, (scanFrom ia idm st files).consoleOut = st.consoleOut ++ w := by
  intro files
  induction files with
  | nil => intro st; exact ⟨[], by simp [scanFrom]⟩
  | cons f fs ih =>
    intro st
    obtain ⟨w2, h2⟩ := ih (processFile ia idm st f)
    obtain ⟨w1, h1⟩ := processFile_console ia idm st f
    refine ⟨(parseFile ia idm f).coutLines ++ w1 ++ w2, ?_⟩
    rw [scanFrom, h2, h1]
    simp [List.append_assoc]

theorem scanFrom_diag_segment (ia idm : Bool) :
    ∀ (files : List FileInput) (st : ScanState) (f : FileInput), f ∈ files →
      ∃ p q, (scanFrom ia idm st files).consoleOut
        = p ++ ((parseFile ia idm f).coutLines ++ q) := by
  intro files
  induction files with
  | nil => intro st f h; cases h
  | cons g gs ih =>
    intro st f hf
    rcases List.mem_cons.mp hf with hfg | hmem
    · subst hfg
      obtain ⟨w1, h1⟩ := processFile_console ia idm st f
      obtain ⟨w2, h2⟩ := scanFrom_console_ext ia idm gs (processFile ia idm st f)
      refine ⟨st.consoleOut, w1 ++ w2, ?_⟩
      rw [scanFrom, h2, h1]
      simp [List.append_assoc]
    · obtain ⟨p, q, hpq⟩ := ih (processFile ia idm st g) f hmem
      exact ⟨p, q, by rw [scanFrom, hpq]⟩

theorem append_shape_helper (A B C D : List String) :
    ∃ p q, (A ++ B ++ C) ++ D = p ++ (B ++ q) :=
  ⟨A, C ++ D, by simp⟩

theorem mainRun_console_shape (path outFile : String) (files : List FileInput)
    (ia idm quiet : Bool) :
    ∃ p q, (mainRun path outFile files ia idm quiet).console
      = p ++ ((scanFolder files ia idm).consoleOut ++ q) := by
  simp only [mainRun]
  split
  · dsimp only
    exact append_shape_helper _ _ _ _
  · split
    · dsimp only
      exact append_shape_helper _ _ _ _
    · dsimp only
      exact append_shape_helper _ _ _ _

/-! ## Claim C4: the per-file diagnostic -/

/-- C4 (counterexample): for an unreadable or empty file, `parseJsonFile`
returns early; no per-file diagnostic block is printed to stdout, only a
failure message to stderr — contradicting the claim that the diagnostic block
is emitted for every file including unreadable and empty ones. -/
theorem c4_counterexample :
    (parseJsonFile "a.json" "" none false false).coutLines = [] ∧
    (parseJsonFile "a.json" "" none false false).cerrLines
      = ["Failed to open or empty file: a.json"] := by
  exact ⟨rfl, rfl⟩

/-- C4 (amended): for every file whose content is non-empty (readable and not
zero-length), the per-file diagnostic block — the filename line and one line
per visible field showing its value or `(not found)` — appears in the
program's stdout, whatever the quiet flag is (quiet mode only suppresses the
statistics block); for unreadable or empty files only a stderr failure
message is produced instead (see the counterexample). -/
theorem c4_diagnostic_always (path outFile : String) (files : List FileInput)
    (ia idm quiet : Bool) (f : FileInput) (hf : f ∈ files) (hc : f.content ≠ "") :
    isSegmentOf (diagBlock f.filename (parseFile ia idm f).data ia idm)
      ((mainRun path outFile files ia idm quiet).console) := by
  have hdiag : (parseFile ia idm f).coutLines
      = diagBlock f.filename (parseFile ia idm f).data ia idm := by
    unfold parseFile parseJsonFile
    rw [if_neg hc]
  obtain ⟨p1, q1, h1⟩ := scanFrom_diag_segment ia idm files initState f hf
  obtain ⟨p2, q2, h2⟩ := mainRun_console_shape path outFile files ia idm quiet
  refine ⟨p2 ++ p1, q1 ++ q2, ?_⟩
  rw [h2, scanFolder, h1, hdiag]
  simp [List.append_assoc]

/-- C4 (witness for the amended theorem): with quiet mode on, the diagnostic
block of a concrete file still appears in the console output. -/
theorem c4_diagnostic_always_witness :
    isSegmentOf (diagBlock wFoo.filename (parseFile false false wFoo).data false false)
      ((mainRun "dir" "out.txt" [wFoo] false false true).console) :=
  c4_diagnostic_always "dir" "out.txt" [wFoo] false false true wFoo
    (List.mem_cons_self wFoo []) (by decide)

/-! ## Claim C5: duplicate share-code counting -/

/-- C5 (confirmed): over a whole run, `duplicateShareCodes` counts exactly the
occurrences-after-the-first of each share code among the successful records:
it equals the number of successful records minus the number of distinct share
codes among them, independently of playlist names.  (Stated without
subtraction: counter + distinct = total.) -/
theorem c5_duplicate_sharecodes (files : List FileInput) (ia idm : Bool) :
    (scanFolder files ia idm).duplicateShareCodes
      + (succCodes files ia idm).dedup.length
      = (succCodes files ia idm).length := by
  have hinv := scanFrom_inv ia idm
    (fun st => st.seenShareCodes.Nodup ∧ st.seenPlaylistNames.Nodup ∧
      st.duplicateShareCodes + st.seenShareCodes.length = st.successfulParses ∧
      st.duplicateNames + st.seenPlaylistNames.length = st.successfulParses)
    (fun st f h => processFile_seen_inv ia idm st f h)
    files initState ⟨List.nodup_nil, List.nodup_nil, rfl, rfl⟩
  obtain ⟨hn1, -, hi1, -⟩ := hinv
  have hsp := scanFrom_succParses ia idm files initState
  have hfin := scanFrom_seenSC_toFinset ia idm files initState
  rw [show initState.successfulParses = 0 from rfl, Nat.zero_add] at hsp
  rw [show initState.seenShareCodes.toFinset = (∅ : Finset String) from rfl,
    Finset.empty_union] at hfin
  have hlen : (scanFrom ia idm initState files).seenShareCodes.length
      = (succCodes files ia idm).dedup.length := by
    rw [← List.toFinset_card_of_nodup hn1, hfin, List.card_toFinset]
  have hlen2 : (succCodes files ia idm).length = (succRecords files ia idm).length := by
    simp [succCodes]
  rw [scanFolder]
  omega

/-! ## Claim C6: counter bookkeeping of the scan loop -/

/-- C6 (confirmed): after any run (hence, applied to a prefix, at any point
during the loop) `successfulParses + failedParses = filesSeen`; and each file
entering the pipeline increments `fileCount` exactly once and exactly one of
`successfulParses` or `failedParses` exactly once. -/
theorem c6_counters_invariant (files : List FileInput) (ia idm : Bool) :
    (scanFolder files ia idm).successfulParses + (scanFolder files ia idm).failedParses
      = (scanFolder files ia idm).fileCount ∧
    ∀ (st : ScanState) (f : FileInput),
      (processFile ia idm st f).fileCount = st.fileCount + 1 ∧
      ((processFile ia idm st f).successfulParses = st.successfulParses + 1 ∧
          (processFile ia idm st f).failedParses = st.failedParses ∨
        (processFile ia idm st f).successfulParses = st.successfulParses ∧
          (processFile ia idm st f).failedParses = st.failedParses + 1) := by
  constructor
  · exact scanFrom_inv ia idm
      (fun st => st.successfulParses + st.failedParses = st.fileCount)
      (fun st f h => processFile_counts_inv ia idm st f h) files initState rfl
  · exact fun st f => processFile_step_counts ia idm st f

/-! ## Claim C9: seen-sets versus counters -/

/-- C9 (confirmed, implicit-claim invariant): the seen-sets hold no
duplicates, and at the end of any run (hence at every point, applied to a
prefix) `duplicateShareCodes` plus the number of distinct share codes in the
share-code seen-set equals `successfulParses`, and likewise for
`duplicateNames` and the playlist-name seen-set: each successful record
either inserts its value or bumps the corresponding duplicate counter, never
both. -/
theorem c9_seen_sets_invariant (files : List FileInput) (ia idm : Bool) :
    (scanFolder files ia idm).seenShareCodes.Nodup ∧
    (scanFolder files ia idm).seenPlaylistNames.Nodup ∧
    (scanFolder files ia idm).duplicateShareCodes
      + (scanFolder files ia idm).seenShareCodes.length
      = (scanFolder files ia idm).successfulParses ∧
    (scanFolder files ia idm).duplicateNames
      + (scanFolder files ia idm).seenPlaylistNames.length
      = (scanFolder files ia idm).successfulParses :=
  scanFrom_inv ia idm
    (fun st => st.seenShareCodes.Nodup ∧ st.seenPlaylistNames.Nodup ∧
      st.duplicateShareCodes + st.seenShareCodes.length = st.successfulParses ∧
      st.duplicateNames + st.seenPlaylistNames.length = st.successfulParses)
    (fun st f h => processFile_seen_inv ia idm st f h)
    files initState ⟨List.nodup_nil, List.nodup_nil, rfl, rfl⟩

/-! ## Claim C10: records in the result sequence are complete -/

/-- C10 (confirmed, implicit-claim invariant): every record appended to the
result sequence has non-empty `playlistName` and `shareCode`, so the two
mandatory lines of its report block show the actual values and the
`(not found)` placeholder branches of `writeResultsToFile` are never taken.
-/
theorem c10_results_nonempty (files : List FileInput) (ia idm : Bool)
    (r : PlaylistData) (hr : r ∈ (scanFolder files ia idm).results) :
    r.playlistName ≠ "" ∧ r.shareCode ≠ "" ∧
    (recordBlock r ia idm).take 2
      = ["Playlist Name: " ++ r.playlistName, "Share Code: " ++ r.shareCode] := by
  have h := scanFrom_inv ia idm
    (fun st => ∀ x ∈ st.results, x.playlistName ≠ "" ∧ x.shareCode ≠ "")
    (fun st f hstep => processFile_results_ok ia idm st f hstep) files initState
    (by intro x hx; cases hx) r hr
  obtain ⟨hp, hs⟩ := h
  refine ⟨hp, hs, ?_⟩
  simp [recordBlock, notFound, hp, hs]

/-- C10 (witness): a concrete run whose single result record is complete. -/
theorem c10_results_nonempty_witness :
    (⟨"Foo", "ABC", "", "", ""⟩ : PlaylistData).playlistName ≠ "" ∧
    (⟨"Foo", "ABC", "", "", ""⟩ : PlaylistData).shareCode ≠ "" ∧
    (recordBlock ⟨"Foo", "ABC", "", "", ""⟩ false false).take 2
      = ["Playlist Name: " ++ (⟨"Foo", "ABC", "", "", ""⟩ : PlaylistData).playlistName,
         "Share Code: " ++ (⟨"Foo", "ABC", "", "", ""⟩ : PlaylistData).shareCode] :=
  c10_results_nonempty [wFoo] false false ⟨"Foo", "ABC", "", "", ""⟩ (by decide)

/-! ## Claim C7: the output file -/

/-- C7 (confirmed): the output file is written exactly when at least one
`.json` file was found and at least one parse succeeded, and then it consists
of one block per successful record, in scan order — a `Playlist Name: ` line,
a `Share Code: ` line, a conditional `Author: <name> SID: <id>` line (author
mode enabled and both values non-empty), a conditional `Description: ` line
(description mode enabled and non-empty), and a blank separator (see
`recordBlock`); with zero files or zero successful parses nothing is written.
(The filesystem open of the destination is outside the model; the statement
describes the text handed to it.) -/
theorem c7_output_file (path outFile : String) (files : List FileInput)
    (ia idm quiet : Bool) :
    (mainRun path outFile files ia idm quiet).outputText
      = if files.isEmpty then none
        else if (succRecords files ia idm).isEmpty then none
        else some ((succRecords files ia idm).flatMap (fun r => recordBlock r ia idm)) := by
  have hfc : (scanFolder files ia idm).fileCount = files.length := by
    rw [scanFolder, scanFrom_fileCount]
    simp [initState]
  have hsp : (scanFolder files ia idm).successfulParses
      = (succRecords files ia idm).length := by
    rw [scanFolder, scanFrom_succParses]
    simp [initState]
  have hres : (scanFolder files ia idm).results = succRecords files ia idm := by
    rw [scanFolder, scanFrom_results]
    simp [initState]
  simp only [mainRun]
  cases files with
  | nil =>
    rw [if_pos (by rw [hfc]; rfl)]
    rfl
  | cons g gs =>
    rw [if_neg (by rw [hfc]; simp)]
    have hemp : (g :: gs).isEmpty = false := rfl
    rw [hemp]
    by_cases hs : (succRecords (g :: gs) ia idm).isEmpty
    · have hlen : (succRecords (g :: gs) ia idm).length = 0 := by
        rw [List.isEmpty_iff.mp hs]
        rfl
      rw [if_neg (by rw [hsp, hlen]; omega)]
      simp [hs]
    · have hlen : (succRecords (g :: gs) ia idm).length ≠ 0 := by
        intro h0
        exact hs (by simp [List.isEmpty_iff, List.length_eq_zero.mp h0])
      rw [if_pos (by rw [hsp]; omega)]
      rw [hres]
      simp only [Bool.not_eq_true] at hs
      rw [hs]
      rfl
